import Mathlib

/-!
Verification of the schema migration engine of the LinkLetter repository
(`database/migrate.go`), embedded shallowly in Lean.

Modelling conventions:
* Go strings are modelled as Lean `String` where only equality matters
  (filenames, ledger values) and as `List Char` where the code manipulates
  their contents (SQL text); `String.data` mediates between the two.
* `strings.Split` is modelled by `splitOnList`, `strings.TrimSpace` by
  `trimSpace`, `strings.Contains` by `containsList`, `strconv.Atoi` by
  `atoi` below.
* The database is reduced to the state the engine reads or writes: whether
  the `_migrations_` table exists, the single ledger row, and the log of
  committed statements.  A transaction buffers statements and the ledger
  update; commit applies the buffer, rollback discards it.
* Failure injection: `fails` says which (trimmed) SQL statements error when
  executed, `updateRes` is the `(rowsAffected, error?)` result the driver
  reports for the ledger `UPDATE`, `commitFails` says whether `tx.Commit()`
  errors.  The panics of the Go code are modelled as the `.aborted` outcome;
  rollback before panic is modelled by discarding the transaction buffer.
-/

namespace LinkLetter

/-! ### Go string primitives -/

/-- The Latin-1 white space characters of Go's `unicode.IsSpace`
(`'\t'`, `'\n'`, `'\v'`, `'\f'`, `'\r'`, `' '`, U+0085, U+00A0).
Space runes above U+00FF exist in Go as well but are irrelevant to SQL
migration files and omitted here. -/
def isGoSpace (c : Char) : Bool :=
  c = '\t' || c = '\n' || c = '\x0b' || c = '\x0c' || c = '\r' || c = ' ' ||
    c = '\u0085' || c = '\u00A0'

/-- Go's `strings.TrimSpace`: drop white space from both ends. -/
def trimSpace (l : List Char) : List Char :=
  ((l.dropWhile isGoSpace).reverse.dropWhile isGoSpace).reverse

/-- Go's `strings.Contains`: does `sub` occur as a contiguous substring of
`l`? -/
def containsList : List Char → List Char → Bool
  | [], sub => sub.isPrefixOf []
  | c :: rest, sub => sub.isPrefixOf (c :: rest) || containsList rest sub

/-- Fuel-driven worker for `splitOnList`.  The fuel starts at the length of
the text and decreases by one on every step while at least one character is
consumed, so it never runs out on the initial call. -/
def splitOnListFuel (sep : List Char) : Nat → List Char → List (List Char)
  | 0, l => [l]
  | fuel + 1, l =>
    match l with
    | [] => [[]]
    | c :: rest =>
      if sep.isPrefixOf (c :: rest) then
        [] :: splitOnListFuel sep fuel ((c :: rest).drop sep.length)
      else
        match splitOnListFuel sep fuel rest with
        | [] => [[c]]
        | cur :: others => (c :: cur) :: others

/-- Go's `strings.Split (l, sep)` for a non-empty separator: the fragments
of `l` between non-overlapping left-most occurrences of `sep`.  (Go splits
after every rune when `sep` is empty; the engine never does that, so the
empty-separator case just returns the text whole.) -/
def splitOnList (sep l : List Char) : List (List Char) :=
  if sep = [] then [l] else splitOnListFuel sep l.length l

instance instDecEqExcept {e a : Type} [DecidableEq e] [DecidableEq a] :
    DecidableEq (Except e a)
  | .error x, .error y =>
    if h : x = y then isTrue (h ▸ rfl) else isFalse (fun hh => h (Except.error.inj hh))
  | .error _, .ok _ => isFalse (fun hh => Except.noConfusion hh)
  | .ok _, .error _ => isFalse (fun hh => Except.noConfusion hh)
  | .ok x, .ok y =>
    if h : x = y then isTrue (h ▸ rfl) else isFalse (fun hh => h (Except.ok.inj hh))

/-- One decimal digit. -/
def digitVal (c : Char) : Option Nat :=
  if '0' ≤ c ∧ c ≤ '9' then some (c.toNat - '0'.toNat) else none

/-- All-decimal-digit parse; `none` when the list is empty or holds a
non-digit. -/
def parseDigits (l : List Char) : Option Nat :=
  match l with
  | [] => none
  | _ :: _ =>
    l.foldl
      (fun acc c =>
        match acc, digitVal c with
        | some n, some d => some (n * 10 + d)
        | _, _ => none)
      (some 0)

/-- Go's `strconv.Atoi` on a 64-bit platform: an optional sign followed by
at least one decimal digit, with the value required to fit in `int64`.
(Go reports range errors with a clamped value; the engine only ever tests
the error, so the value of a failed parse is not modelled.) -/
def atoi (l : List Char) : Except Unit Int :=
  match l with
  | '+' :: rest =>
    match parseDigits rest with
    | some n => if (n : Int) ≤ 2 ^ 63 - 1 then .ok (n : Int) else .error ()
    | none => .error ()
  | '-' :: rest =>
    match parseDigits rest with
    | some n => if (n : Int) ≤ 2 ^ 63 then .ok (-(n : Int)) else .error ()
    | none => .error ()
  | _ =>
    match parseDigits l with
    | some n => if (n : Int) ≤ 2 ^ 63 - 1 then .ok (n : Int) else .error ()
    | none => .error ()

example : atoi "55".data = .ok 55 := by decide
example : atoi "-1".data = .ok (-1) := by decide
example : atoi "".data = .error () := by decide
example : atoi "1a".data = .error () := by decide
example : trimSpace "  Query one ".data = "Query one".data := by decide
example : splitOnList ";".data "a;b".data = ["a".data, "b".data] := by decide

/-! ### The migration catalog (`migrate.go`) -/

/-- A result of `ioutil.ReadDir "migrations"`. -/
structure DirEntry where
  name : String
  isDir : Bool
deriving DecidableEq

/-- `getMigrationIndex` of `migrate.go`:
`strconv.Atoi(strings.Split(migration, "_")[0])` — the part of the filename
before the first underscore (the whole name when there is none), parsed by
`Atoi`. -/
def getMigrationIndex (migration : String) : Except Unit Int :=
  atoi (migration.data.takeWhile (fun c => c ≠ '_'))

/-- The sort key used by `byMigrationIndex.Less`: `iLoc, _ :=
getMigrationIndex(...)`, so a failed parse contributes Go's zero value.
(Inside `getMigrationsInOrder` every sorted name parses successfully, so
the fallback is never reached there.) -/
def migKey (migration : String) : Int :=
  match getMigrationIndex migration with
  | .ok n => n
  | .error _ => 0

/-- The weak order realised by `sort.Stable(byMigrationIndex(...))`:
`Less i j` is `migKey i < migKey j`, so the sorted output is exactly an
ascending-by-`migKey`, tie-stable permutation.  A stable sort's output is
uniquely determined by that property, so we embed `sort.Stable` as
insertion sort with respect to `migLE`. -/
def migLE (a b : String) : Prop :=
  migKey a ≤ migKey b

instance : DecidableRel migLE := fun a b => Int.decLe (migKey a) (migKey b)

instance : IsTotal String migLE := ⟨fun a b => Int.le_total (migKey a) (migKey b)⟩

instance : IsTrans String migLE := ⟨fun _ _ _ hab hbc => le_trans hab hbc⟩

/-- The filter of `getMigrationsInOrder`: not a directory, name ends in
`.sql`, and `getMigrationIndex` parses. -/
def qualifies (f : DirEntry) : Bool :=
  !f.isDir && ".sql".data.isSuffixOf f.name.data &&
    (match getMigrationIndex f.name with
     | .ok _ => true
     | .error _ => false)

/-- `getMigrationsInOrder` of `migrate.go`, parameterised by the directory
listing: keep the qualifying entries in enumeration order, then sort them
stably by migration index (`sort.Stable(byMigrationIndex(migrations))`). -/
def getMigrationsInOrder (dir : List DirEntry) : List String :=
  List.insertionSort migLE ((dir.filter qualifies).map DirEntry.name)

/-- `posInSlice` of `migrate.go`: index of the first occurrence of `value`,
`-1` when absent. -/
def posInSlice : List String → String → Int
  | [], _ => -1
  | element :: rest, value =>
    if value = element then 0
    else if posInSlice rest value = -1 then -1 else posInSlice rest value + 1

/-! ### The database model -/

/-- The persisted state the engine touches: existence of the
`_migrations_` table, the single ledger row (`version`), and the committed
schema-changing statements in execution order. -/
structure DB where
  tableExists : Bool
  ledger : String
  schemaLog : List (List Char)
deriving DecidableEq

/-- `createMigrationTableIfNeeded`: when the table is missing, create it
and seed the single row with the empty string. -/
def createMigrationTableIfNeeded (db : DB) : DB :=
  if db.tableExists then db else { tableExists := true, ledger := "", schemaLog := db.schemaLog }

/-- `getCurrentMigration`: read the lone ledger row. -/
def getCurrentMigration (db : DB) : String :=
  db.ledger

/-- `getCurrentMigrationIndex` of `migrate.go`. -/
def getCurrentMigrationIndex (db : DB) (migrations : List String) : Int :=
  if getCurrentMigration db ≠ "" then
    if posInSlice migrations (getCurrentMigration db) = -1 then
      posInSlice migrations (getCurrentMigration db)
    else posInSlice migrations (getCurrentMigration db) + 1
  else 0

/-! ### Statement execution -/

/-- The inner loop of `execSQLFile`: trim each fragment, skip the ones that
trim to nothing, run the rest through `tx.Exec` in order.  `executed` is
the transaction's statement buffer; an error carries the buffer at the
point of failure together with the failing statement. -/
def execStatements (fails : List Char → Bool) (executed : List (List Char)) :
    List (List Char) → Except (List (List Char) × List Char) (List (List Char))
  | [] => .ok executed
  | fragment :: rest =>
    if trimSpace fragment = [] then execStatements fails executed rest
    else if fails (trimSpace fragment) then .error (executed, trimSpace fragment)
    else execStatements fails (executed ++ [trimSpace fragment]) rest

/-- `execSQLFile` of `migrate.go`, with the file contents passed in place
of the filename: `strings.Split(contents, ";")`, then trim, skip empties,
execute in order.  (The `ioutil.ReadFile` error path is not modelled; the
claims under study all concern files that read successfully.) -/
def execSQLFile (fails : List Char → Bool) (executed : List (List Char)) (contents : String) :
    Except (List (List Char) × List Char) (List (List Char)) :=
  execStatements fails executed (splitOnList ";".data contents.data)

/-- The loop of `performNeededMigrations` over a list of migration files,
reading each file's contents through `files`. -/
def execMigrationFiles (fails : List Char → Bool) (files : String → String)
    (executed : List (List Char)) :
    List String → Except (List (List Char) × List Char) (List (List Char))
  | [] => .ok executed
  | migration :: rest =>
    match execSQLFile fails executed (files migration) with
    | .error e => .error e
    | .ok executed2 => execMigrationFiles fails files executed2 rest

/-- `performNeededMigrations` of `migrate.go`: run every migration file
from `startIndex` on (`migrations[startIndex:]`); on any error the caller
rolls the transaction back and panics. -/
def performNeededMigrations (fails : List Char → Bool) (files : String → String)
    (executed : List (List Char)) (migrations : List String) (startIndex : Nat) :
    Except (List (List Char) × List Char) (List (List Char)) :=
  execMigrationFiles fails files executed (migrations.drop startIndex)

/-- `updateMigrationTable` of `migrate.go`:
`_, err := tx.Exec(updateMigrationQuery, migrations[len(migrations)-1])`.
`updateRes` is the driver's `(rowsAffected, error?)` result; the code binds
the `sql.Result` to `_`, so only the error component is ever inspected.
On success the new ledger value is the last catalog name.  (The call site
guarantees `migrations` is non-empty; Go would panic on the empty
indexing, hence the default is irrelevant.) -/
def updateMigrationTable (updateRes : Nat × Bool) (migrations : List String) :
    Except Unit String :=
  if updateRes.2 then .error () else .ok (migrations.getLastD "")

/-! ### The executor -/

/-- Terminal states of one `DoMigrations` invocation: the warning return
for a ledger value absent from the catalog, the up-to-date return, a
committed batch, or rollback-and-panic. -/
inductive RunResult where
  | warned
  | upToDate
  | committed
  | aborted
deriving DecidableEq

/-- Observable outcome of one `DoMigrations` invocation: the persisted
database, whether `db.Begin()` was called, the statements executed inside
the transaction, and the terminal state. -/
structure RunOutcome where
  db : DB
  txOpened : Bool
  executed : List (List Char)
  result : RunResult
deriving DecidableEq

/-- `DoMigrations` of `migrate.go`.  `fails` injects statement-execution
errors, `updateRes` is the driver result for the ledger `UPDATE`,
`commitFails` injects a `tx.Commit()` error.  The code discards the result
of `tx.Commit()` (`tx.Commit()` on its own line), so the outcome is
`.committed` in both commit branches; a failed commit persists nothing. -/
def DoMigrations (fails : List Char → Bool) (files : String → String) (dir : List DirEntry)
    (updateRes : Nat × Bool) (commitFails : Bool) (db0 : DB) : RunOutcome :=
  let db := createMigrationTableIfNeeded db0
  let migrations := getMigrationsInOrder dir
  let startIndex := getCurrentMigrationIndex db migrations
  if startIndex = -1 then
    { db := db, txOpened := false, executed := [], result := .warned }
  else if startIndex = (migrations.length : Int) then
    { db := db, txOpened := false, executed := [], result := .upToDate }
  else
    match performNeededMigrations fails files [] migrations startIndex.toNat with
    | .error e =>
      { db := db, txOpened := true, executed := e.1, result := .aborted }
    | .ok stmts =>
      match updateMigrationTable updateRes migrations with
      | .error _ =>
        { db := db, txOpened := true, executed := stmts, result := .aborted }
      | .ok newVersion =>
        if commitFails then
          { db := db, txOpened := true, executed := stmts, result := .committed }
        else
          { db := { tableExists := db.tableExists, ledger := newVersion,
                    schemaLog := db.schemaLog ++ stmts },
            txOpened := true, executed := stmts, result := .committed }

/-! ### The alternate split marker

The repository's test file (`TestGetSplitToken`, `TestSplitQueries`,
`TestExecSQLFile` with a `Something with; semi-colons` statement) exercises
`getSplitToken`, `fullSplitToken` and `splitQueries`, but the revision of
`migrate.go` carrying their implementation is not among the provided
sources — the provided `migrate.go` predates it and splits on `";"`
unconditionally.  The three definitions below are therefore modelled from
the spec (§4.1) and those tests. -/

/-- Modelled from the spec: the distinguished out-of-band marker token of
§4.1 — "a string value that cannot plausibly occur in real SQL".  Its exact
spelling is fixed by neither the spec nor the available sources; any
SQL-implausible constant realises it. -/
def fullSplitToken : String :=
  "--LinkLetterSplitToken--"

/-- Modelled from the spec: the delimiter selection of §4.1 — "scan the
whole file content once for the presence of the marker token; if found,
split on the marker; otherwise split on `;`" (pinned by
`TestGetSplitToken`). -/
def getSplitToken (contents : String) : String :=
  if containsList contents.data fullSplitToken.data then fullSplitToken else ";"

/-- Modelled from the spec: the splitting step of §4.1 — split the file on
`getSplitToken contents`, trim every fragment, and drop the fragments that
trim to nothing (pinned by `TestSplitQueries`). -/
def splitQueries (contents : String) : List (List Char) :=
  ((splitOnList (getSplitToken contents).data contents.data).map trimSpace).filter
    (fun s => s ≠ [])

/-- The spec's description of the splitter output (§4.1): every fragment
trimmed, fragments that trim to nothing discarded, source order kept. -/
def cleanFragments (frags : List (List Char)) : List (List Char) :=
  (frags.map trimSpace).filter (fun s => s ≠ [])

/-! ### Concrete inputs used by the witnesses -/

/-- A two-file migrations directory. -/
def exDir : List DirEntry :=
  [⟨"1_a.sql", false⟩, ⟨"2_b.sql", false⟩]

/-- A fresh database: table present, ledger seeded empty. -/
def exDB : DB :=
  ⟨true, "", []⟩

/-- File contents for a fully succeeding batch. -/
def exFilesGood : String → String := fun m =>
  if m = "1_a.sql" then "CREATE TABLE a (x INT);"
  else "CREATE TABLE b (y INT);INSERT INTO b VALUES (2);"

/-- File contents where the second file's second statement is invalid. -/
def exFilesBad : String → String := fun m =>
  if m = "1_a.sql" then "CREATE TABLE a (x INT);"
  else "CREATE TABLE b (y INT);BROKEN SQL;"

/-- No statement fails. -/
def noFails : List Char → Bool := fun _ => false

/-- Exactly the invalid statement of `exFilesBad` fails. -/
def exFails : List Char → Bool := fun s => s = "BROKEN SQL".data

/-- A file content carrying the alternate split marker, whose first
statement contains a literal semicolon. -/
def exMarked : String :=
  "  UPDATE t SET v = 1; DELETE FROM t --LinkLetterSplitToken-- SELECT 2"

example :
    getMigrationsInOrder
      [⟨"10_tenth.sql", false⟩, ⟨"1_first.sql", false⟩, ⟨"2_second.sql", false⟩,
       ⟨"README.md", false⟩, ⟨"sub.sql", true⟩] =
      ["1_first.sql", "2_second.sql", "10_tenth.sql"] := by decide

example : posInSlice ["test1", "test2", "test3"] "test1" = 0 := by decide
example : posInSlice ["test1", "test2", "test3"] "test4" = -1 := by decide

example :
    getCurrentMigrationIndex ⟨true, "2_test.sql", []⟩
      ["0_test.sql", "1_test.sql", "2_test.sql"] = 3 := by decide

example :
    getCurrentMigrationIndex ⟨true, "4_test.sql", []⟩
      ["0_test.sql", "1_test.sql", "2_test.sql"] = -1 := by decide

example :
    getCurrentMigrationIndex ⟨true, "", []⟩
      ["0_test.sql", "1_test.sql", "2_test.sql"] = 0 := by decide

example :
    splitQueries "  Query one ; Querytwo;querythree" =
      ["Query one".data, "Querytwo".data, "querythree".data] := by decide

example :
    splitQueries ("  Query one --LinkLetterSplitToken-- Querytwo--LinkLetterSplitToken--querythree") =
      ["Query one".data, "Querytwo".data, "querythree".data] := by decide

/-! ### Helper lemmas -/

theorem cleanFragments_nil : cleanFragments [] = [] := rfl

theorem cleanFragments_cons (f : List Char) (rest : List (List Char)) :
    cleanFragments (f :: rest) =
      if trimSpace f = [] then cleanFragments rest
      else trimSpace f :: cleanFragments rest := by
  by_cases h : trimSpace f = [] <;> simp [cleanFragments, h]

theorem execStatements_ok_of_noFail (fails : List Char → Bool) (frags : List (List Char)) :
    ∀ executed : List (List Char),
      (∀ s ∈ cleanFragments frags, fails s = false) →
      execStatements fails executed frags = .ok (executed ++ cleanFragments frags) := by
  induction frags with
  | nil => intro executed _; simp [execStatements, cleanFragments]
  | cons f rest ih =>
    intro executed h
    by_cases ht : trimSpace f = []
    · rw [cleanFragments_cons, if_pos ht] at h ⊢
      rw [execStatements, if_pos ht]
      exact ih executed h
    · rw [cleanFragments_cons, if_neg ht] at h ⊢
      have hf : fails (trimSpace f) = false := h _ (List.mem_cons_self _ _)
      rw [execStatements, if_neg ht, hf]
      simp only [Bool.false_eq_true, if_false]
      rw [ih (executed ++ [trimSpace f]) (fun s hs => h s (List.mem_cons_of_mem _ hs))]
      simp

theorem execStatements_eq_of_ok (fails : List Char → Bool) (frags : List (List Char)) :
    ∀ (executed out : List (List Char)),
      execStatements fails executed frags = .ok out →
      out = executed ++ cleanFragments frags := by
  induction frags with
  | nil =>
    intro executed out h
    rw [execStatements] at h
    cases h
    simp [cleanFragments]
  | cons f rest ih =>
    intro executed out h
    by_cases ht : trimSpace f = []
    · rw [execStatements, if_pos ht] at h
      rw [cleanFragments_cons, if_pos ht]
      exact ih executed out h
    · rw [execStatements, if_neg ht] at h
      rw [cleanFragments_cons, if_neg ht]
      cases hf : fails (trimSpace f) with
      | true => rw [hf] at h; simp at h
      | false =>
        rw [hf] at h
        simp only [Bool.false_eq_true, if_false] at h
        rw [ih _ _ h]
        simp

theorem posInSlice_of_not_mem : ∀ (l : List String) (v : String), v ∉ l → posInSlice l v = -1 := by
  intro l
  induction l with
  | nil => intro v _; rfl
  | cons x rest ih =>
    intro v hv
    have hne : v ≠ x := fun h => hv (h ▸ List.mem_cons_self x rest)
    have hrest : v ∉ rest := fun h => hv (List.mem_cons_of_mem x h)
    rw [posInSlice, if_neg hne, ih v hrest]
    simp

theorem getLastD_cons_cons (x y : String) (rest : List String) (d : String) :
    (x :: y :: rest).getLastD d = (y :: rest).getLastD d :=
  rfl

theorem getLastD_mem : ∀ (l : List String) (d : String), l ≠ [] → l.getLastD d ∈ l := by
  intro l
  induction l with
  | nil => intro d h; exact absurd rfl h
  | cons x rest ih =>
    intro d _
    cases rest with
    | nil => exact List.mem_singleton.mpr rfl
    | cons y rest2 =>
      rw [getLastD_cons_cons]
      exact List.mem_cons_of_mem x (ih d (by simp))

theorem posInSlice_getLastD :
    ∀ l : List String, l.Nodup → l ≠ [] →
      posInSlice l (l.getLastD "") = (l.length : Int) - 1 := by
  intro l
  induction l with
  | nil => intro _ h; exact absurd rfl h
  | cons x rest ih =>
    intro hnd _
    cases rest with
    | nil =>
      rw [show ([x] : List String).getLastD "" = x from rfl]
      simp [posInSlice]
    | cons y rest2 =>
      rw [getLastD_cons_cons]
      have hxr : x ∉ y :: rest2 := (List.nodup_cons.mp hnd).1
      have hlast : (y :: rest2).getLastD "" ∈ y :: rest2 := getLastD_mem _ "" (by simp)
      have hne : (y :: rest2).getLastD "" ≠ x := fun h => hxr (h ▸ hlast)
      have hr := ih (List.nodup_cons.mp hnd).2 (by simp)
      have hlen : (1 : Int) ≤ ((y :: rest2).length : Int) := by
        simp only [List.length_cons]
        push_cast
        omega
      rw [posInSlice, if_neg hne, hr, if_neg (by omega)]
      simp only [List.length_cons]
      push_cast
      ring

theorem mem_getMigrationsInOrder {dir : List DirEntry} {x : String} :
    x ∈ getMigrationsInOrder dir ↔ ∃ e ∈ dir, qualifies e = true ∧ e.name = x := by
  unfold getMigrationsInOrder
  rw [List.mem_insertionSort]
  simp [List.mem_map, List.mem_filter, and_assoc]

theorem sql_suffix_of_qualifies {e : DirEntry} (h : qualifies e = true) :
    ".sql".data.isSuffixOf e.name.data = true := by
  simp only [qualifies, Bool.and_eq_true] at h
  exact h.1.2

theorem ne_empty_of_mem_catalog {dir : List DirEntry} {x : String}
    (h : x ∈ getMigrationsInOrder dir) : x ≠ "" := by
  obtain ⟨e, _, hq, hname⟩ := mem_getMigrationsInOrder.mp h
  intro hx
  have hs := sql_suffix_of_qualifies hq
  rw [hname, hx] at hs
  exact absurd hs (by decide)

theorem nodup_catalog {dir : List DirEntry} (h : (dir.map DirEntry.name).Nodup) :
    (getMigrationsInOrder dir).Nodup := by
  unfold getMigrationsInOrder
  rw [(List.perm_insertionSort migLE _).nodup_iff]
  exact ((List.filter_sublist dir).map DirEntry.name).nodup h

theorem createMigrationTableIfNeeded_of_exists {db : DB} (h : db.tableExists = true) :
    createMigrationTableIfNeeded db = db := by
  simp [createMigrationTableIfNeeded, h]

theorem tableExists_createMigrationTableIfNeeded (db : DB) :
    (createMigrationTableIfNeeded db).tableExists = true := by
  by_cases h : db.tableExists <;> simp [createMigrationTableIfNeeded, h]

theorem getCurrentMigrationIndex_of_empty_ledger {db : DB} (l : List String)
    (h : db.ledger = "") : getCurrentMigrationIndex db l = 0 := by
  simp [getCurrentMigrationIndex, getCurrentMigration, h]

theorem getCurrentMigrationIndex_of_missing {db : DB} {l : List String}
    (h1 : db.ledger ≠ "") (h2 : db.ledger ∉ l) : getCurrentMigrationIndex db l = -1 := by
  simp [getCurrentMigrationIndex, getCurrentMigration, h1, posInSlice_of_not_mem l _ h2]

theorem getCurrentMigrationIndex_of_last {db : DB} {l : List String}
    (hnd : l.Nodup) (hne : l ≠ []) (hl : db.ledger = l.getLastD "")
    (hv : l.getLastD "" ≠ "") : getCurrentMigrationIndex db l = (l.length : Int) := by
  have hlen : (1 : Int) ≤ (l.length : Int) := by
    cases l with
    | nil => exact absurd rfl hne
    | cons a t =>
      simp only [List.length_cons]
      push_cast
      omega
  simp only [getCurrentMigrationIndex, getCurrentMigration, hl]
  rw [if_pos hv, posInSlice_getLastD l hnd hne, if_neg (by omega)]
  ring

theorem getCurrentMigrationIndex_nil (db : DB) :
    getCurrentMigrationIndex db [] = -1 ∨ getCurrentMigrationIndex db [] = 0 := by
  by_cases h : db.ledger = ""
  · exact Or.inr (getCurrentMigrationIndex_of_empty_ledger [] h)
  · exact Or.inl (getCurrentMigrationIndex_of_missing h (by simp))

/-- Abbreviation for the start index `DoMigrations` computes. -/
theorem doMigrations_eq_warned (fails : List Char → Bool) (files : String → String)
    (dir : List DirEntry) (ur : Nat × Bool) (cf : Bool) (db : DB)
    (hidx : getCurrentMigrationIndex (createMigrationTableIfNeeded db)
      (getMigrationsInOrder dir) = -1) :
    DoMigrations fails files dir ur cf db =
      { db := createMigrationTableIfNeeded db, txOpened := false, executed := [],
        result := .warned } := by
  simp [DoMigrations, hidx]

theorem doMigrations_eq_upToDate (fails : List Char → Bool) (files : String → String)
    (dir : List DirEntry) (ur : Nat × Bool) (cf : Bool) (db : DB)
    (hidx : getCurrentMigrationIndex (createMigrationTableIfNeeded db)
      (getMigrationsInOrder dir) = ((getMigrationsInOrder dir).length : Int)) :
    DoMigrations fails files dir ur cf db =
      { db := createMigrationTableIfNeeded db, txOpened := false, executed := [],
        result := .upToDate } := by
  have hne : ((getMigrationsInOrder dir).length : Int) ≠ -1 := by omega
  simp [DoMigrations, hidx, hne]

theorem doMigrations_eq_aborted_exec (fails : List Char → Bool) (files : String → String)
    (dir : List DirEntry) (ur : Nat × Bool) (cf : Bool) (db : DB)
    (e : List (List Char) × List Char)
    (hidx : getCurrentMigrationIndex (createMigrationTableIfNeeded db)
      (getMigrationsInOrder dir) ≠ -1)
    (hlen : getCurrentMigrationIndex (createMigrationTableIfNeeded db)
      (getMigrationsInOrder dir) ≠ ((getMigrationsInOrder dir).length : Int))
    (herr : performNeededMigrations fails files [] (getMigrationsInOrder dir)
      (getCurrentMigrationIndex (createMigrationTableIfNeeded db)
        (getMigrationsInOrder dir)).toNat = .error e) :
    DoMigrations fails files dir ur cf db =
      { db := createMigrationTableIfNeeded db, txOpened := true, executed := e.1,
        result := .aborted } := by
  simp [DoMigrations, hidx, hlen, herr]

theorem doMigrations_eq_aborted_update (fails : List Char → Bool) (files : String → String)
    (dir : List DirEntry) (ur : Nat × Bool) (cf : Bool) (db : DB)
    (stmts : List (List Char))
    (hidx : getCurrentMigrationIndex (createMigrationTableIfNeeded db)
      (getMigrationsInOrder dir) ≠ -1)
    (hlen : getCurrentMigrationIndex (createMigrationTableIfNeeded db)
      (getMigrationsInOrder dir) ≠ ((getMigrationsInOrder dir).length : Int))
    (hok : performNeededMigrations fails files [] (getMigrationsInOrder dir)
      (getCurrentMigrationIndex (createMigrationTableIfNeeded db)
        (getMigrationsInOrder dir)).toNat = .ok stmts)
    (hur : ur.2 = true) :
    DoMigrations fails files dir ur cf db =
      { db := createMigrationTableIfNeeded db, txOpened := true, executed := stmts,
        result := .aborted } := by
  simp [DoMigrations, hidx, hlen, hok, updateMigrationTable, hur]

theorem doMigrations_eq_committed_ok (fails : List Char → Bool) (files : String → String)
    (dir : List DirEntry) (ur : Nat × Bool) (db : DB) (stmts : List (List Char))
    (hidx : getCurrentMigrationIndex (createMigrationTableIfNeeded db)
      (getMigrationsInOrder dir) ≠ -1)
    (hlen : getCurrentMigrationIndex (createMigrationTableIfNeeded db)
      (getMigrationsInOrder dir) ≠ ((getMigrationsInOrder dir).length : Int))
    (hok : performNeededMigrations fails files [] (getMigrationsInOrder dir)
      (getCurrentMigrationIndex (createMigrationTableIfNeeded db)
        (getMigrationsInOrder dir)).toNat = .ok stmts)
    (hur : ur.2 = false) :
    DoMigrations fails files dir ur false db =
      { db := { tableExists := (createMigrationTableIfNeeded db).tableExists,
                ledger := (getMigrationsInOrder dir).getLastD "",
                schemaLog := (createMigrationTableIfNeeded db).schemaLog ++ stmts },
        txOpened := true, executed := stmts, result := .committed } := by
  simp [DoMigrations, hidx, hlen, hok, updateMigrationTable, hur]

theorem doMigrations_eq_committed_commitFail (fails : List Char → Bool)
    (files : String → String) (dir : List DirEntry) (ur : Nat × Bool) (db : DB)
    (stmts : List (List Char))
    (hidx : getCurrentMigrationIndex (createMigrationTableIfNeeded db)
      (getMigrationsInOrder dir) ≠ -1)
    (hlen : getCurrentMigrationIndex (createMigrationTableIfNeeded db)
      (getMigrationsInOrder dir) ≠ ((getMigrationsInOrder dir).length : Int))
    (hok : performNeededMigrations fails files [] (getMigrationsInOrder dir)
      (getCurrentMigrationIndex (createMigrationTableIfNeeded db)
        (getMigrationsInOrder dir)).toNat = .ok stmts)
    (hur : ur.2 = false) :
    DoMigrations fails files dir ur true db =
      { db := createMigrationTableIfNeeded db, txOpened := true, executed := stmts,
        result := .committed } := by
  simp [DoMigrations, hidx, hlen, hok, updateMigrationTable, hur]

/-- Every run that reports `.committed` with a succeeding commit ends with
the ledger holding the last catalog name, a true `tableExists` flag, and a
non-empty catalog. -/
theorem committed_run_db (fails : List Char → Bool) (files : String → String)
    (dir : List DirEntry) (ur : Nat × Bool) (db : DB)
    (hc : (DoMigrations fails files dir ur false db).result = .committed) :
    (DoMigrations fails files dir ur false db).db.tableExists = true ∧
    (DoMigrations fails files dir ur false db).db.ledger =
      (getMigrationsInOrder dir).getLastD "" ∧
    getMigrationsInOrder dir ≠ [] := by
  by_cases h1 : getCurrentMigrationIndex (createMigrationTableIfNeeded db)
      (getMigrationsInOrder dir) = -1
  · rw [doMigrations_eq_warned fails files dir ur false db h1] at hc
    simp at hc
  by_cases h2 : getCurrentMigrationIndex (createMigrationTableIfNeeded db)
      (getMigrationsInOrder dir) = ((getMigrationsInOrder dir).length : Int)
  · rw [doMigrations_eq_upToDate fails files dir ur false db h2] at hc
    simp at hc
  have hcat : getMigrationsInOrder dir ≠ [] := by
    intro hnil
    rw [hnil] at h1 h2
    rcases getCurrentMigrationIndex_nil (createMigrationTableIfNeeded db) with h | h
    · exact h1 h
    · exact h2 (by rw [h]; simp)
  cases hperf : performNeededMigrations fails files [] (getMigrationsInOrder dir)
      (getCurrentMigrationIndex (createMigrationTableIfNeeded db)
        (getMigrationsInOrder dir)).toNat with
  | error e =>
    rw [doMigrations_eq_aborted_exec fails files dir ur false db e h1 h2 hperf] at hc
    simp at hc
  | ok stmts =>
    cases hur : ur.2 with
    | true =>
      rw [doMigrations_eq_aborted_update fails files dir ur false db stmts h1 h2 hperf hur] at hc
      simp at hc
    | false =>
      rw [doMigrations_eq_committed_ok fails files dir ur db stmts h1 h2 hperf hur]
      exact ⟨tableExists_createMigrationTableIfNeeded db, rfl, hcat⟩

/-- Stability of `orderedInsert` for the key-based order `migLE`: filtering
the insertion result to one key value either prepends the inserted element
(when it has that key) or leaves the filtered list unchanged. -/
theorem filter_migKey_orderedInsert (a : String) (k : Int) :
    ∀ l : List String,
      (List.orderedInsert migLE a l).filter (fun m => migKey m = k) =
        if migKey a = k then a :: l.filter (fun m => migKey m = k)
        else l.filter (fun m => migKey m = k) := by
  intro l
  induction l with
  | nil =>
    by_cases h : migKey a = k <;> simp [List.orderedInsert, h]
  | cons b l ih =>
    by_cases hab : migLE a b
    · rw [List.orderedInsert, if_pos hab]
      by_cases ha : migKey a = k <;> simp [List.filter_cons, ha]
    · rw [List.orderedInsert, if_neg hab]
      have hba : migKey b < migKey a := not_le.mp (by simpa [migLE] using hab)
      by_cases ha : migKey a = k
      · have hb : migKey b ≠ k := by omega
        simp [List.filter_cons, hb, ih, ha]
      · by_cases hb : migKey b = k <;> simp [List.filter_cons, hb, ih, ha]

/-- Stability of insertion sort for `migLE`: the subsequence of entries
with any fixed key is untouched by sorting. -/
theorem filter_migKey_insertionSort (k : Int) :
    ∀ l : List String,
      (List.insertionSort migLE l).filter (fun m => migKey m = k) =
        l.filter (fun m => migKey m = k) := by
  intro l
  induction l with
  | nil => rfl
  | cons b l ih =>
    rw [List.insertionSort, filter_migKey_orderedInsert b k (List.insertionSort migLE l), ih]
    by_cases hb : migKey b = k <;> simp [List.filter_cons, hb]

/-- Step 4 of the executor: an empty pending set — empty catalog with a
fresh ledger, or a ledger already naming the last catalog entry — returns
up to date, with no transaction and no writes. -/
theorem upToDate_of_pending_empty (fails : List Char → Bool) (files : String → String)
    (dir : List DirEntry) (ur : Nat × Bool) (cf : Bool) (db : DB)
    (hTable : db.tableExists = true) (hnd : (getMigrationsInOrder dir).Nodup)
    (hcase : db.ledger = "" ∧ getMigrationsInOrder dir = [] ∨
      getMigrationsInOrder dir ≠ [] ∧ db.ledger = (getMigrationsInOrder dir).getLastD "") :
    DoMigrations fails files dir ur cf db =
      { db := db, txOpened := false, executed := [], result := .upToDate } := by
  have hens := createMigrationTableIfNeeded_of_exists hTable
  have hidx : getCurrentMigrationIndex (createMigrationTableIfNeeded db)
      (getMigrationsInOrder dir) = ((getMigrationsInOrder dir).length : Int) := by
    rw [hens]
    rcases hcase with ⟨hl, hcat⟩ | ⟨hcat, hl⟩
    · rw [hcat, getCurrentMigrationIndex_of_empty_ledger [] hl]
      simp
    · have hv : (getMigrationsInOrder dir).getLastD "" ≠ "" :=
        ne_empty_of_mem_catalog (getLastD_mem _ "" hcat)
      exact getCurrentMigrationIndex_of_last hnd hcat hl hv
  rw [doMigrations_eq_upToDate fails files dir ur cf db hidx, hens]

/-- `qualifies` unpacked into the filtering rule's three conditions. -/
theorem qualifies_iff {e : DirEntry} :
    qualifies e = true ↔
      e.isDir = false ∧ ".sql".data.isSuffixOf e.name.data = true ∧
        ∃ n : Int, getMigrationIndex e.name = .ok n := by
  unfold qualifies
  cases hgi : getMigrationIndex e.name with
  | ok n =>
    simp [hgi, Bool.and_eq_true]
  | error u =>
    simp [hgi, Bool.and_eq_true]

/-! ### The claims -/

/-- C1: Atomicity of a batch.  For every invocation of `DoMigrations` on a
database whose ledger table exists, if the pending set is non-empty (the
computed start index is neither `-1` nor the catalog length) and executing
the pending migration files fails on some statement, then the transaction
is rolled back before the process aborts: the persisted database —
ledger value and schema state alike — is exactly what it was before the
batch started, and the run ends in the fatal rollback state. -/
theorem c1_batch_atomic_on_failure (fails : List Char → Bool) (files : String → String)
    (dir : List DirEntry) (ur : Nat × Bool) (cf : Bool) (db : DB)
    (e : List (List Char) × List Char)
    (hTable : db.tableExists = true)
    (hidx : getCurrentMigrationIndex db (getMigrationsInOrder dir) ≠ -1)
    (hlen : getCurrentMigrationIndex db (getMigrationsInOrder dir) ≠
      ((getMigrationsInOrder dir).length : Int))
    (herr : performNeededMigrations fails files [] (getMigrationsInOrder dir)
      (getCurrentMigrationIndex db (getMigrationsInOrder dir)).toNat = .error e) :
    (DoMigrations fails files dir ur cf db).db = db ∧
    (DoMigrations fails files dir ur cf db).result = .aborted := by
  have hens := createMigrationTableIfNeeded_of_exists hTable
  rw [← hens] at hidx hlen herr
  rw [doMigrations_eq_aborted_exec fails files dir ur cf db e hidx hlen herr]
  exact ⟨hens, rfl⟩

/-- C1 witness: pending files `1_a.sql`, `2_b.sql` where the second
statement of `2_b.sql` is invalid; after the run the database still holds
the pre-batch ledger value (the empty string) and nothing of `1_a.sql`'s
successful execution persists. -/
theorem c1_witness :
    (DoMigrations exFails exFilesBad exDir (1, false) false ⟨true, "", []⟩).db =
      ⟨true, "", []⟩ ∧
    (DoMigrations exFails exFilesBad exDir (1, false) false ⟨true, "", []⟩).result =
      .aborted :=
  c1_batch_atomic_on_failure exFails exFilesBad exDir (1, false) false ⟨true, "", []⟩
    (["CREATE TABLE a (x INT)".data, "CREATE TABLE b (y INT)".data], "BROKEN SQL".data)
    (by decide) (by decide) (by decide) (by decide)

/-- C2: Alternate delimiter (modelled from the spec, §4.1, and the
repository's `TestGetSplitToken`/`TestSplitQueries` tests; the revision of
`migrate.go` implementing `getSplitToken`/`splitQueries` is absent from the
provided sources).  For every file content containing the distinguished
marker token, `splitQueries` splits the whole file on that marker instead
of on `;`: the output is exactly the marker-split fragments trimmed and
purged of empties, and any fragment between markers — semicolons and all —
survives as a single statement. -/
theorem c2_marker_split (contents : String)
    (h : containsList contents.data fullSplitToken.data = true) :
    splitQueries contents = cleanFragments (splitOnList fullSplitToken.data contents.data) ∧
    ∀ fragment ∈ splitOnList fullSplitToken.data contents.data,
      trimSpace fragment ≠ [] → trimSpace fragment ∈ splitQueries contents := by
  have htok : getSplitToken contents = fullSplitToken := by
    rw [getSplitToken, if_pos h]
  constructor
  · rw [splitQueries, htok]
    rfl
  · intro fragment hf hne
    rw [splitQueries, htok]
    exact List.mem_filter.mpr ⟨List.mem_map.mpr ⟨fragment, hf, rfl⟩, by simpa using hne⟩

/-- C2 witness: a file whose first statement contains a literal `;` and
which carries the marker token; the splitter keeps that statement intact. -/
theorem c2_witness :
    splitQueries exMarked = cleanFragments (splitOnList fullSplitToken.data exMarked.data) ∧
    "UPDATE t SET v = 1; DELETE FROM t".data ∈ splitQueries exMarked :=
  ⟨(c2_marker_split exMarked (by decide)).1,
    (c2_marker_split exMarked (by decide)).2
      "  UPDATE t SET v = 1; DELETE FROM t ".data (by decide) (by decide)⟩

/-- C3: Missing-ledger-entry policy.  When the ledger holds a non-empty
name that is not in the catalog, `DoMigrations` warns and returns
normally: no transaction is opened, no statement is executed, and the
database — the ledger value included — is unchanged. -/
theorem c3_missing_ledger_warns (fails : List Char → Bool) (files : String → String)
    (dir : List DirEntry) (ur : Nat × Bool) (cf : Bool) (db : DB)
    (hTable : db.tableExists = true)
    (hne : db.ledger ≠ "")
    (hmiss : db.ledger ∉ getMigrationsInOrder dir) :
    DoMigrations fails files dir ur cf db =
      { db := db, txOpened := false, executed := [], result := .warned } := by
  have hens := createMigrationTableIfNeeded_of_exists hTable
  have hidx : getCurrentMigrationIndex (createMigrationTableIfNeeded db)
      (getMigrationsInOrder dir) = -1 := by
    rw [hens]
    exact getCurrentMigrationIndex_of_missing hne hmiss
  rw [doMigrations_eq_warned fails files dir ur cf db hidx, hens]

/-- C3 witness: the spec's scenario — ledger `doesNotExist.sql` against
catalog `[1_a.sql, 2_b.sql]` warns and changes nothing. -/
theorem c3_witness :
    DoMigrations noFails exFilesGood exDir (1, false) false ⟨true, "doesNotExist.sql", []⟩ =
      { db := ⟨true, "doesNotExist.sql", []⟩, txOpened := false, executed := [],
        result := .warned } :=
  c3_missing_ledger_warns noFails exFilesGood exDir (1, false) false
    ⟨true, "doesNotExist.sql", []⟩ (by decide) (by decide) (by decide)

/-- C4: Idempotence of the executor.  First, whenever the pending set is
empty — the catalog is empty with a fresh ledger, or the ledger names the
last catalog entry — `DoMigrations` returns up to date without opening a
transaction and without any write.  Second, after a run that committed
(with the commit succeeding), running `DoMigrations` again on an unchanged
directory performs zero writes: no transaction, no statements, database
untouched. -/
theorem c4_idempotent :
    (∀ (fails : List Char → Bool) (files : String → String) (dir : List DirEntry)
        (ur : Nat × Bool) (cf : Bool) (db : DB),
      db.tableExists = true →
      (getMigrationsInOrder dir).Nodup →
      (db.ledger = "" ∧ getMigrationsInOrder dir = [] ∨
        getMigrationsInOrder dir ≠ [] ∧ db.ledger = (getMigrationsInOrder dir).getLastD "") →
      DoMigrations fails files dir ur cf db =
        { db := db, txOpened := false, executed := [], result := .upToDate }) ∧
    (∀ (fails : List Char → Bool) (files : String → String) (dir : List DirEntry)
        (ur : Nat × Bool) (db : DB) (fails2 : List Char → Bool) (files2 : String → String)
        (ur2 : Nat × Bool) (cf2 : Bool),
      (dir.map DirEntry.name).Nodup →
      (DoMigrations fails files dir ur false db).result = .committed →
      DoMigrations fails2 files2 dir ur2 cf2 (DoMigrations fails files dir ur false db).db =
        { db := (DoMigrations fails files dir ur false db).db, txOpened := false,
          executed := [], result := .upToDate }) := by
  constructor
  · intro fails files dir ur cf db hTable hnd hcase
    exact upToDate_of_pending_empty fails files dir ur cf db hTable hnd hcase
  · intro fails files dir ur db fails2 files2 ur2 cf2 hnames hc
    obtain ⟨hT, hL, hNE⟩ := committed_run_db fails files dir ur db hc
    exact upToDate_of_pending_empty fails2 files2 dir ur2 cf2 _ hT (nodup_catalog hnames)
      (Or.inr ⟨hNE, hL⟩)

/-- C4 witness: a database already at `2_b.sql` reports up to date with no
writes, and a second run directly after a committed first run reports up
to date with no writes. -/
theorem c4_witness :
    DoMigrations noFails exFilesGood exDir (1, false) false ⟨true, "2_b.sql", []⟩ =
      { db := ⟨true, "2_b.sql", []⟩, txOpened := false, executed := [],
        result := .upToDate } ∧
    DoMigrations noFails exFilesGood exDir (1, false) false
        (DoMigrations noFails exFilesGood exDir (1, false) false exDB).db =
      { db := (DoMigrations noFails exFilesGood exDir (1, false) false exDB).db,
        txOpened := false, executed := [], result := .upToDate } :=
  ⟨c4_idempotent.1 noFails exFilesGood exDir (1, false) false ⟨true, "2_b.sql", []⟩
      (by decide) (by decide) (Or.inr ⟨by decide, by decide⟩),
    c4_idempotent.2 noFails exFilesGood exDir (1, false) exDB noFails exFilesGood
      (1, false) false (by decide) (by decide)⟩

/-- C5: Round-trip of the ledger update.  Every run that commits (with the
commit succeeding) leaves the ledger holding exactly the last catalog
entry's name — which is the last pending file, pending being a suffix of
the catalog — so a subsequent `getCurrentMigration` read returns exactly
that name; and the applied batch was non-empty. -/
theorem c5_ledger_roundtrip (fails : List Char → Bool) (files : String → String)
    (dir : List DirEntry) (ur : Nat × Bool) (db : DB)
    (hc : (DoMigrations fails files dir ur false db).result = .committed) :
    getCurrentMigration (DoMigrations fails files dir ur false db).db =
      (getMigrationsInOrder dir).getLastD "" ∧
    getMigrationsInOrder dir ≠ [] := by
  obtain ⟨_, hL, hNE⟩ := committed_run_db fails files dir ur db hc
  exact ⟨hL, hNE⟩

/-- C5 witness: after a committed batch over `[1_a.sql, 2_b.sql]` the
ledger reads back the last catalog name. -/
theorem c5_witness :
    getCurrentMigration (DoMigrations noFails exFilesGood exDir (1, false) false exDB).db =
      (getMigrationsInOrder exDir).getLastD "" ∧
    getMigrationsInOrder exDir ≠ [] :=
  c5_ledger_roundtrip noFails exFilesGood exDir (1, false) exDB (by decide)

/-- C6 counterexample: the driver reports zero affected rows without an
error and `updateMigrationTable` nevertheless succeeds — the claimed
affected-row-count guard does not exist (`_, err := tx.Exec(...)` discards
the `sql.Result`). -/
theorem c6_counterexample :
    updateMigrationTable (0, false) ["1_a.sql", "2_b.sql"] = .ok "2_b.sql" ∧
    (0 : Nat) ≠ 1 := by
  constructor
  · rfl
  · decide

/-- C6 amended: `updateMigrationTable` signals failure — triggering the
caller's rollback — exactly when the driver returns an error from the
`UPDATE`; the affected-row count is discarded unread, so any count is
accepted. -/
theorem c6_error_only_guard (updateRes : Nat × Bool) (migrations : List String) :
    updateMigrationTable updateRes migrations = .error () ↔ updateRes.2 = true := by
  obtain ⟨rows, err⟩ := updateRes
  cases err <;> simp [updateMigrationTable]

/-- C7 counterexample: `-1_a.sql` is catalogued even though its numeric
prefix parses to the negative integer `-1` — `strconv.Atoi` accepts signed
integers, so the claimed non-negativity requirement is not enforced. -/
theorem c7_counterexample :
    getMigrationsInOrder [⟨"-1_a.sql", false⟩] = ["-1_a.sql"] ∧
    getMigrationIndex "-1_a.sql" = .ok (-1) ∧ (-1 : Int) < 0 := by
  refine ⟨by decide, by decide, by decide⟩

/-- C7 amended: a directory entry is catalogued iff it is a regular file,
its name ends in `.sql`, and the part of its name before the first `_`
parses under Go's `Atoi` — i.e. as an optionally signed decimal integer
within the `int64` range, not necessarily non-negative; all other entries
are skipped. -/
theorem c7_filter_rule (dir : List DirEntry) (x : String) :
    x ∈ getMigrationsInOrder dir ↔
      ∃ e ∈ dir, e.isDir = false ∧ ".sql".data.isSuffixOf e.name.data = true ∧
        (∃ n : Int, getMigrationIndex e.name = .ok n) ∧ e.name = x := by
  rw [mem_getMigrationsInOrder]
  constructor
  · rintro ⟨e, he, hq, hname⟩
    obtain ⟨h1, h2, h3⟩ := qualifies_iff.mp hq
    exact ⟨e, he, h1, h2, h3, hname⟩
  · rintro ⟨e, he, h1, h2, h3, h4⟩
    exact ⟨e, he, qualifies_iff.mpr ⟨h1, h2, h3⟩, h4⟩

/-- C8: Catalog ordering.  The catalog is sorted ascending by parsed
order key, and the sort is stable: for every key value, the subsequence of
catalog entries with that key equals the qualifying entries with that key
in directory-enumeration order. -/
theorem c8_sorted_stable (dir : List DirEntry) :
    List.Sorted migLE (getMigrationsInOrder dir) ∧
    ∀ k : Int,
      (getMigrationsInOrder dir).filter (fun m => migKey m = k) =
        ((dir.filter qualifies).map DirEntry.name).filter (fun m => migKey m = k) := by
  unfold getMigrationsInOrder
  exact ⟨List.sorted_insertionSort migLE ((dir.filter qualifies).map DirEntry.name),
    fun k => filter_migKey_insertionSort k ((dir.filter qualifies).map DirEntry.name)⟩

/-- C9: Default splitting discipline.  For file contents free of the
alternate marker, `execSQLFile` executes exactly the `;`-separated
fragments that are non-empty after trimming, each trimmed, in source
order: when none of those statements fails, the transaction's statement
buffer grows by precisely that cleaned fragment list. -/
theorem c9_default_split (fails : List Char → Bool) (contents : String)
    (executed : List (List Char))
    (_hmark : containsList contents.data fullSplitToken.data = false)
    (hok : ∀ s ∈ cleanFragments (splitOnList ";".data contents.data), fails s = false) :
    execSQLFile fails executed contents =
      .ok (executed ++ cleanFragments (splitOnList ";".data contents.data)) :=
  execStatements_ok_of_noFail fails (splitOnList ";".data contents.data) executed hok

/-- C9 witness: the spec's example — two statements, interior whitespace
and a trailing delimiter — splits into exactly the two trimmed statements
in order. -/
theorem c9_witness :
    execSQLFile noFails [] "INSERT INTO t VALUES (1);  \nUPDATE t SET x=1;" =
      .ok ["INSERT INTO t VALUES (1)".data, "UPDATE t SET x=1".data] :=
  c9_default_split noFails "INSERT INTO t VALUES (1);  \nUPDATE t SET x=1;" []
    (by decide) (by decide)

/-- C10: Commit failure is silently ignored.  When a run reaches the
commit step — non-empty pending set, every statement succeeded, the ledger
`UPDATE` succeeded — `DoMigrations` discards the result of `tx.Commit()`:
even when the commit fails, the run reports the committed outcome, with no
rollback and no abort (and, the commit having failed, the persisted
database is unchanged). -/
theorem c10_commit_failure_ignored (fails : List Char → Bool) (files : String → String)
    (dir : List DirEntry) (ur : Nat × Bool) (db : DB) (stmts : List (List Char))
    (hTable : db.tableExists = true)
    (hidx : getCurrentMigrationIndex db (getMigrationsInOrder dir) ≠ -1)
    (hlen : getCurrentMigrationIndex db (getMigrationsInOrder dir) ≠
      ((getMigrationsInOrder dir).length : Int))
    (hok : performNeededMigrations fails files [] (getMigrationsInOrder dir)
      (getCurrentMigrationIndex db (getMigrationsInOrder dir)).toNat = .ok stmts)
    (hur : ur.2 = false) :
    DoMigrations fails files dir ur true db =
      { db := db, txOpened := true, executed := stmts, result := .committed } := by
  have hens := createMigrationTableIfNeeded_of_exists hTable
  rw [← hens] at hidx hlen hok
  rw [doMigrations_eq_committed_commitFail fails files dir ur db stmts hidx hlen hok hur, hens]

/-- C10 witness: a fully succeeding batch whose commit fails still reports
the committed outcome. -/
theorem c10_witness :
    DoMigrations noFails exFilesGood exDir (1, false) true exDB =
      { db := exDB, txOpened := true,
        executed := ["CREATE TABLE a (x INT)".data, "CREATE TABLE b (y INT)".data,
          "INSERT INTO b VALUES (2)".data],
        result := .committed } :=
  c10_commit_failure_ignored noFails exFilesGood exDir (1, false) exDB
    ["CREATE TABLE a (x INT)".data, "CREATE TABLE b (y INT)".data,
      "INSERT INTO b VALUES (2)".data]
    (by decide) (by decide) (by decide) (by decide) (by decide)

end LinkLetter
